import Mathlib

/-!
Verification development for `generate_posters.py`.

The script walks a media tree, probes each video's duration, computes a safe
snapshot timestamp, and extracts one poster frame per video with a two-tier
(fast-seek, then sequential-decode) strategy, committing output atomically via
a temporary file.

Modelling conventions:
* Python `float` values are embedded as exact rationals (`ℚ`).
* External subprocess invocations (`ffprobe`, `ffmpeg`) are modelled by oracle
  environments that record the observable outcome of each call (exit code,
  captured text, and the state the call leaves the temporary file in).
* Filesystem state relevant to one file is the pair of optional sizes at the
  poster path and at its temporary path.
* Observable actions of the orchestrator are recorded as explicit event lists.
-/

namespace GeneratePosters

/-- Timestamp policy `choose_timestamp` (source lines 76–91).

```python
if duration is None or duration <= 0:
    return max(0.0, snapshot_time)
if duration < 6:
    return max(0.0, duration * 0.5)
t = snapshot_time if snapshot_time > 0 else duration * 0.2
if t >= duration - 0.5:
    t = duration * 0.6
return max(0.0, min(t, duration - 0.2))
``` -/
def choose_timestamp (snapshot_time : ℚ) (duration : Option ℚ) : ℚ :=
  match duration with
  | none => max 0 snapshot_time
  | some d =>
    if d ≤ 0 then max 0 snapshot_time
    else if d < 6 then max 0 (d * (1/2))
    else
      let t0 : ℚ := if 0 < snapshot_time then snapshot_time else d * (1/5)
      let t1 : ℚ := if d - (1/2) ≤ t0 then d * (3/5) else t0
      max 0 (min t1 (d - (1/5)))

/-- C1: for every known duration `d > 0` and requested offset `t ≥ 0`,
`choose_timestamp t (some d)` lies in the half-open interval `[0, d)`; when
the duration is unknown (`none`) or non-positive, the result is exactly
`max 0 t`.  Totality and determinism hold by construction: `choose_timestamp`
is a total Lean function of its two inputs. -/
theorem choose_timestamp_total_bounded (t d : ℚ) (ht : 0 ≤ t) (hd : 0 < d) :
    (0 ≤ choose_timestamp t (some d) ∧ choose_timestamp t (some d) < d)
    ∧ (∀ s : ℚ, choose_timestamp s none = max 0 s)
    ∧ (∀ s e : ℚ, e ≤ 0 → choose_timestamp s (some e) = max 0 s) := by
  refine ⟨?_, fun s => rfl, fun s e he => ?_⟩
  · simp only [choose_timestamp]
    rw [if_neg (not_le.mpr hd)]
    by_cases h6 : d < 6
    · rw [if_pos h6]
      exact ⟨le_max_left _ _, max_lt hd (by linarith)⟩
    · rw [if_neg h6]
      refine ⟨le_max_left _ _, max_lt hd ?_⟩
      exact lt_of_le_of_lt (min_le_right _ _) (by linarith)
  · simp only [choose_timestamp]
    rw [if_pos he]

/-- Witness for C1 at the concrete input `t = 120`, `d = 30`. -/
theorem choose_timestamp_total_bounded_w :
    (0:ℚ) ≤ 120 ∧ (0:ℚ) < 30
    ∧ (0 ≤ choose_timestamp 120 (some 30) ∧ choose_timestamp 120 (some 30) < 30) :=
  ⟨by norm_num, by norm_num,
    (choose_timestamp_total_bounded 120 30 (by norm_num) (by norm_num)).1⟩

/-- C4 counterexample: the claim's general clause says that for a known
duration below the (≈60s) short-video threshold the policy returns
`min(requestedOffset, duration * 0.5)`; but `choose_timestamp 30 (some 40)`
evaluates to `30`, whereas `min 30 (40 * (1/2)) = 20`.  The code's short-video
threshold is `6`, and durations in `[6, 60)` get no midpoint clamp. -/
theorem choose_timestamp_midclamp_cex :
    choose_timestamp 30 (some 40) = 30 ∧ (30:ℚ) ≠ min 30 (40 * (1/2)) := by
  constructor
  · norm_num [choose_timestamp, min_def, max_def]
  · norm_num [min_def]

/-- C4 (amended): the short-video threshold in the code is 6 seconds; for
every known duration `d` with `0 < d < 6` the policy returns `d * 0.5`
(there is no separate midpoint clamp for durations in `[6, 60)`); the two
concrete facts of the claim hold: `choose_timestamp 120 (some 3) = 1.5` and
`choose_timestamp 10 (some 40) ≤ 20`. -/
theorem choose_timestamp_short_clamp :
    (∀ t d : ℚ, 0 < d → d < 6 → choose_timestamp t (some d) = d * (1/2))
    ∧ choose_timestamp 120 (some 3) = 3/2
    ∧ choose_timestamp 10 (some 40) ≤ 20 := by
  have h1 : ∀ t d : ℚ, 0 < d → d < 6 → choose_timestamp t (some d) = d * (1/2) := by
    intro t d hd h6
    simp only [choose_timestamp]
    rw [if_neg (not_le.mpr hd), if_pos h6]
    exact max_eq_right (by linarith)
  refine ⟨h1, ?_, ?_⟩
  · rw [h1 120 3 (by norm_num) (by norm_num)]; norm_num
  · norm_num [choose_timestamp, min_def, max_def]

/-- Witness for C4's amended universal clause at `t = 7`, `d = 4`. -/
theorem choose_timestamp_short_clamp_w :
    (0:ℚ) < 4 ∧ (4:ℚ) < 6 ∧ choose_timestamp 7 (some 4) = 4 * (1/2) :=
  ⟨by norm_num, by norm_num, choose_timestamp_short_clamp.1 7 4 (by norm_num) (by norm_num)⟩

/-- Observable actions of `run_with_timeout` (source lines 25–47). -/
inductive RunEvent
  | killpg      -- `os.killpg(proc.pid, signal.SIGKILL)`
  | killDirect  -- fallback `proc.kill()` when `killpg` raised
  | waitChild   -- `proc.communicate(...)`, which waits for process exit
deriving DecidableEq

/-- Oracle for one `run_with_timeout` invocation: whether the wall-clock
timeout elapsed (`subprocess.TimeoutExpired`), the child's real exit code and
captured stderr when it did not, the stderr gathered by the post-kill
`communicate()` when it did, and whether `os.killpg` raised. -/
structure RunEnv where
  timesOut : Bool
  exitCode : ℤ
  stderrText : String
  stderrAfterKill : String
  killpgFails : Bool

/-- Bounded process runner `run_with_timeout` (source lines 25–47): returns
`(returncode, stderr_text)` together with the trace of kill/wait actions.

```python
try:
    _, stderr = proc.communicate(timeout=timeout_s)
    return proc.returncode, stderr or ""
except subprocess.TimeoutExpired:
    try:
        os.killpg(proc.pid, signal.SIGKILL)
    except Exception:
        proc.kill()
    _, stderr = proc.communicate()
    return 124, (stderr or "") + "\n[timeout]"
``` -/
def run_with_timeout (env : RunEnv) : (ℤ × String) × List RunEvent :=
  if env.timesOut then
    ((124, env.stderrAfterKill ++ "\n[timeout]"),
      (if env.killpgFails then [RunEvent.killpg, RunEvent.killDirect] else [RunEvent.killpg])
        ++ [RunEvent.waitChild])
  else
    ((env.exitCode, env.stderrText), [RunEvent.waitChild])

/-- C6: when the command exceeds its wall-clock timeout, the runner first
sends the group kill (falling back to killing the direct child exactly when
the group kill fails), always waits for the process as its final action, and
returns exactly exit code 124 with the `[timeout]` marker appended to the
captured stderr; on non-timeout completion it returns the child's real exit
code and its stderr unmodified, performing no kill. -/
theorem run_with_timeout_spec (env : RunEnv) :
    (env.timesOut = true →
      (run_with_timeout env).1 = (124, env.stderrAfterKill ++ "\n[timeout]")
      ∧ (run_with_timeout env).2.head? = some RunEvent.killpg
      ∧ (run_with_timeout env).2.getLast? = some RunEvent.waitChild
      ∧ (RunEvent.killDirect ∈ (run_with_timeout env).2 ↔ env.killpgFails = true))
    ∧ (env.timesOut = false →
      (run_with_timeout env).1 = (env.exitCode, env.stderrText)
      ∧ (run_with_timeout env).2 = [RunEvent.waitChild]) := by
  constructor
  · intro h
    simp only [run_with_timeout, h, if_true]
    by_cases hk : env.killpgFails <;> simp [hk]
  · intro h
    simp [run_with_timeout, h]

/-- Witness for C6 at a concrete timed-out invocation with working group
kill, and a concrete normal completion. -/
theorem run_with_timeout_spec_w :
    (run_with_timeout ⟨true, 0, "x", "y", false⟩).1 = (124, "y" ++ "\n[timeout]")
    ∧ (run_with_timeout ⟨false, 3, "x", "y", false⟩).1 = (3, "x") :=
  ⟨((run_with_timeout_spec ⟨true, 0, "x", "y", false⟩).1 rfl).1,
   ((run_with_timeout_spec ⟨false, 3, "x", "y", false⟩).2 rfl).1⟩

/-- Oracle for one `ffprobe_duration_seconds` invocation: the exit code the
first (`run_with_timeout`) call reports, whether the second call
(`subprocess.run`) raises (timeout or any other exception), the second call's
exit code and captured stdout, and the result of Python `float(...)` applied
to the stripped stdout (`none` when `float` raises on unparseable text). -/
structure ProbeEnv where
  firstCode : ℤ
  runRaises : Bool
  secondCode : ℤ
  stdoutText : String
  parsedFloat : Option ℚ

/-- Python `str.strip()` on a string with no arguments: remove leading and
trailing whitespace; modelled on the character list. -/
def strippedChars (s : String) : List Char :=
  ((s.toList.dropWhile Char.isWhitespace).reverse.dropWhile Char.isWhitespace).reverse

/-- Duration probe `ffprobe_duration_seconds` (source lines 50–73).

```python
code, err = run_with_timeout(cmd, timeout_s)
if code != 0:
    return None
try:
    r = subprocess.run(cmd, capture_output=True, text=True, timeout=timeout_s)
    if r.returncode != 0:
        return None
    s = (r.stdout or "").strip()
    if not s:
        return None
    return float(s)
except Exception:
    return None
``` -/
def ffprobe_duration_seconds (env : ProbeEnv) : Option ℚ :=
  if env.firstCode ≠ 0 then none
  else if env.runRaises then none
  else if env.secondCode ≠ 0 then none
  else if (strippedChars env.stdoutText).isEmpty then none
  else env.parsedFloat

/-- C5 counterexample: the claim says the probe never returns a zero or
negative duration, but with both external calls succeeding and ffprobe
printing `"0"` (which Python parses as `0.0`) the probe returns `some 0`,
which is not positive. -/
theorem ffprobe_duration_cex :
    ffprobe_duration_seconds ⟨0, false, 0, "0", some 0⟩ = some 0
    ∧ ¬ (0:ℚ) < 0 := by
  constructor
  · decide
  · norm_num

/-- C5 (amended): the probe never raises — each of {non-zero exit of either
external call, an exception during the `subprocess.run` call, empty stripped
output, unparseable output text} collapses to `none` — and otherwise it
returns the parsed numeric value as-is; that value is not validated and may
be zero or negative (non-positive values are treated as unknown downstream
by `choose_timestamp`). -/
theorem ffprobe_duration_never_raises (env : ProbeEnv) :
    (env.firstCode ≠ 0 → ffprobe_duration_seconds env = none)
    ∧ (env.runRaises = true → ffprobe_duration_seconds env = none)
    ∧ (env.secondCode ≠ 0 → ffprobe_duration_seconds env = none)
    ∧ ((strippedChars env.stdoutText).isEmpty = true → ffprobe_duration_seconds env = none)
    ∧ (env.parsedFloat = none → ffprobe_duration_seconds env = none)
    ∧ (ffprobe_duration_seconds env = none ∨ ffprobe_duration_seconds env = env.parsedFloat) := by
  unfold ffprobe_duration_seconds
  refine ⟨fun h => by simp [h], fun h => by simp [h], fun h => by simp [h], ?_, ?_, ?_⟩
  · intro h
    split_ifs <;> simp_all
  · intro h
    split_ifs <;> simp_all
  · split_ifs <;> simp

/-- Witness for C5's amended theorem: a non-zero first exit code collapses to
`none`, and a fully successful probe returns the parsed value as-is. -/
theorem ffprobe_duration_never_raises_w :
    ffprobe_duration_seconds ⟨1, false, 0, "12.5", some (25/2)⟩ = none
    ∧ (ffprobe_duration_seconds ⟨0, false, 0, "12.5", some (25/2)⟩ = none
       ∨ ffprobe_duration_seconds ⟨0, false, 0, "12.5", some (25/2)⟩ = some (25/2)) :=
  ⟨(ffprobe_duration_never_raises ⟨1, false, 0, "12.5", some (25/2)⟩).1 (by norm_num),
   (ffprobe_duration_never_raises ⟨0, false, 0, "12.5", some (25/2)⟩).2.2.2.2.2⟩

/-- The two extraction strategies: `-ss` before `-i` (fast input seek) and
`-ss` after `-i` (sequential decode). -/
inductive Strat
  | fast
  | compat
deriving DecidableEq

/-- Observable actions of the per-file orchestration in `main`
(source lines 167–260). -/
inductive Ev
  | probe                                       -- `ffprobe_duration_seconds(...)`
  | deleteTarget                                -- `target.unlink(missing_ok=True)`
  | extract (s : Strat) (offset : ℚ) (timeoutS : ℤ)  -- `run_with_timeout(cmd_*, ...)`
  | replaceTmpTarget                            -- `os.replace(tmp, target)`
  | unlinkTmp                                   -- `tmp.unlink(missing_ok=True)`
  | sleepCooldown                               -- `time.sleep(args.cooldown)`
deriving DecidableEq

/-- The command-line arguments consumed by the per-file orchestration. -/
structure Args where
  snapshot_time : ℚ
  dry_run : Bool
  force : Bool
  cooldown : ℚ
  fast_timeout : ℤ
  compat_timeout : ℤ

/-- The filesystem state relevant to one video: the size of the file at the
poster path (`none` when absent) and at its temporary path. -/
structure FileFS where
  target : Option ℕ
  tmp : Option ℕ
deriving DecidableEq

/-- `p.exists() and p.stat().st_size > 0` for an optional file. -/
def existsNonempty : Option ℕ → Bool
  | some s => decide (0 < s)
  | none => false

/-- Oracle for the external effects during one file's processing: whether
`target.unlink` raises in force mode, the probe's outcome, and for each of
the two ffmpeg attempts its exit code (124 when it timed out, per
`run_with_timeout`), the state it leaves the temporary file in, and whether
the `tmp.unlink(missing_ok=True)` cleanup after that attempt's failure
raises (the source swallows such an exception with `except Exception: pass`,
source lines 222–225 and 249–252).  A raising post-fast cleanup has no
bearing on the final state: the compat invocation then overwrites the
temporary path (`-y`), and `compatTmp` is by definition the observed state
of that path after the compat invocation, whatever it started from. -/
structure FileEnv where
  deleteFails : Bool
  probeDur : Option ℚ
  fastExit : ℤ
  fastTmp : Option ℕ
  fastUnlinkFails : Bool
  compatExit : ℤ
  compatTmp : Option ℕ
  compatUnlinkFails : Bool

/-- Success test for one attempt (source lines 215 and 243):
`code == 0 and tmp.exists() and tmp.stat().st_size > 0`. -/
def attemptOk (code : ℤ) (tmp : Option ℕ) : Bool :=
  decide (code = 0) && existsNonempty tmp

/-- The fallback offset (source lines 229–231):
`compat_t = 5.0; if dur is not None and dur < 6: compat_t = max(0.0, dur * 0.5)`. -/
def compatOffset (dur : Option ℚ) : ℚ :=
  match dur with
  | some d => if d < 6 then max 0 (d * (1/2)) else 5
  | none => 5

/-- How one file's processing ends: which single counter it bumps
(`noCount` only on the dry-run path that stops after the probe). -/
inductive Tally
  | created
  | skipped
  | failed
  | noCount
deriving DecidableEq

/-- Result of processing one file: the counter it bumps, the trace of
observable actions, and the final filesystem state of its two paths. -/
structure StepResult where
  tally : Tally
  evs : List Ev
  fs : FileFS
deriving DecidableEq

/-- `if args.cooldown > 0: time.sleep(args.cooldown)` (source lines 259–260),
reached after every real (non-dry-run) extraction section. -/
def withCooldown (args : Args) (r : StepResult) : StepResult :=
  if 0 < args.cooldown then ⟨r.tally, r.evs ++ [Ev.sleepCooldown], r.fs⟩ else r

/-- The probe-and-extract section of `main`'s per-file loop (source lines
190–260): probe the duration, compute the offset, stop there in dry-run mode;
otherwise run the fast attempt into the temporary path, commit it with
`os.replace` when it verifies, else attempt to unlink the temporary file and
run the compat attempt, committing or cleaning up likewise, then cool down.
Each `tmp.unlink(missing_ok=True)` cleanup sits in a `try/except` that
swallows its exception, so on the final failure path a raising unlink leaves
the temporary file behind (its state after the compat invocation). -/
def extractPhase (args : Args) (env : FileEnv) (fs : FileFS) : StepResult :=
  let t := choose_timestamp args.snapshot_time env.probeDur
  if args.dry_run then ⟨Tally.noCount, [Ev.probe], fs⟩
  else withCooldown args (
    if attemptOk env.fastExit env.fastTmp then
      ⟨Tally.created,
       [Ev.probe, Ev.extract Strat.fast t args.fast_timeout, Ev.replaceTmpTarget],
       ⟨env.fastTmp, none⟩⟩
    else if attemptOk env.compatExit env.compatTmp then
      ⟨Tally.created,
       [Ev.probe, Ev.extract Strat.fast t args.fast_timeout, Ev.unlinkTmp,
        Ev.extract Strat.compat (compatOffset env.probeDur) args.compat_timeout,
        Ev.replaceTmpTarget],
       ⟨env.compatTmp, none⟩⟩
    else
      ⟨Tally.failed,
       [Ev.probe, Ev.extract Strat.fast t args.fast_timeout, Ev.unlinkTmp,
        Ev.extract Strat.compat (compatOffset env.probeDur) args.compat_timeout,
        Ev.unlinkTmp],
       ⟨fs.target, if env.compatUnlinkFails then env.compatTmp else none⟩⟩)

/-- One full iteration of `main`'s per-file loop (source lines 167–260): the
existing-poster check (skip in non-force mode; in force mode delete the old
poster first — simulated only in dry-run — failing the file when the deletion
raises), then the probe-and-extract section. -/
def processFile (args : Args) (env : FileEnv) (fs : FileFS) : StepResult :=
  if existsNonempty fs.target then
    if args.force then
      if args.dry_run then extractPhase args env fs
      else if env.deleteFails then ⟨Tally.failed, [Ev.deleteTarget], fs⟩
      else
        let r := extractPhase args env ⟨none, fs.tmp⟩
        ⟨r.tally, Ev.deleteTarget :: r.evs, r.fs⟩
    else ⟨Tally.skipped, [], fs⟩
  else extractPhase args env fs

/-- The run summary counters of `main` (source lines 162–165). -/
structure Counters where
  processed : ℕ
  created : ℕ
  skipped : ℕ
  failed : ℕ
deriving DecidableEq

/-- Bump the counter selected by one file's outcome. -/
def applyTally (c : Counters) : Tally → Counters
  | Tally.created => ⟨c.processed, c.created + 1, c.skipped, c.failed⟩
  | Tally.skipped => ⟨c.processed, c.created, c.skipped + 1, c.failed⟩
  | Tally.failed => ⟨c.processed, c.created, c.skipped, c.failed + 1⟩
  | Tally.noCount => c

/-- The whole pass of `main` over the enumerated files: `processed += 1` for
each file, then the outcome's counter. -/
def runAll (args : Args) : List (FileEnv × FileFS) → Counters → Counters
  | [], c => c
  | (env, fs) :: rest, c =>
      runAll args rest
        (applyTally ⟨c.processed + 1, c.created, c.skipped, c.failed⟩
          (processFile args env fs).tally)

/-- Directory identity `(st_dev, st_ino)` as computed by `os.stat`
(source line 103). -/
abbrev DirId := ℕ × ℕ

/-- An abstract directory forest for `iter_video_files` (source lines
94–117): the finite set of directory nodes (identified by their
device/inode key — a symbolic link to a directory is the same node reached
under another parent, which is how cycles arise), each node's subdirectory
list and file-name list in listing order, and whether `os.stat` raises on
it (permission error, broken link). -/
structure WalkFS where
  nodes : List DirId
  children : DirId → List DirId
  files : DirId → List String
  statFail : DirId → Bool

/-- Observable outcome of the walk: descending into a directory, and
yielding one matching file (identified by its directory's identity and its
name). -/
inductive WEv
  | enter (d : DirId)
  | yieldFile (d : DirId) (name : String)
deriving DecidableEq

/-- `os.stat(dirpath)` succeeds: the directory is a real node of the forest
and no error is raised. -/
def statOk (fs : WalkFS) (d : DirId) : Bool :=
  decide (d ∈ fs.nodes) && ! fs.statFail d

/-- Python `pathlib.PurePath.suffix` for a plain file name: the substring
from the last dot on, provided that dot is neither the first nor the last
character; otherwise the empty string. -/
def pySuffix (name : String) : String :=
  let cs := name.toList
  match ((List.range cs.length).filter fun i => cs.getD i ' ' = '.').getLast? with
  | some i => if 0 < i ∧ i < cs.length - 1 then String.mk (cs.drop i) else ""
  | none => ""

/-- Python `str.lstrip(".")`: drop every leading dot. -/
def lstripDot (s : String) : String :=
  String.mk (s.toList.dropWhile fun c => c = '.')

/-- `p.suffix.lower().lstrip(".")` (source line 115), with `lower()`
modelled as character-wise lowercasing. -/
def videoExt (fn : String) : String :=
  lstripDot (String.mk ((pySuffix fn).toList.map Char.toLower))

/-- `DEFAULT_EXTS` (source line 13), as a list standing for the set. -/
def DEFAULT_EXTS : List String :=
  ["mp4", "mkv", "avi", "mov", "wmv", "ts"]

/-- The walk of `iter_video_files` composed with the pruning it performs on
`os.walk`'s top-down traversal (source lines 100–117), as a depth-first
worklist: for the front directory, if `os.stat` fails the directory is
skipped silently; if its key was already visited its subtree is pruned
(`dirnames[:] = []`); otherwise the key is recorded, the directory's
matching files are yielded, and its subdirectories are walked.  The `fuel`
argument is recursion fuel only; `walkFuel` below computes a sufficient
amount.  Returns the event trace and the final visited set. -/
def walkAux (fs : WalkFS) (exts : List String) :
    ℕ → Finset DirId → List DirId → List WEv × Finset DirId
  | 0, visited, _ => ([], visited)
  | _ + 1, visited, [] => ([], visited)
  | fuel + 1, visited, d :: rest =>
    if statOk fs d then
      if d ∈ visited then walkAux fs exts fuel visited rest
      else
        (WEv.enter d ::
          ((fs.files d).filter (fun fn => videoExt fn ∈ exts)).map (WEv.yieldFile d)
          ++ (walkAux fs exts fuel (insert d visited) (fs.children d ++ rest)).1,
         (walkAux fs exts fuel (insert d visited) (fs.children d ++ rest)).2)
    else walkAux fs exts fuel visited rest

/-- Sufficient fuel for `walkAux`: the worklist length plus the total
subdirectory count of the not-yet-visited nodes (each step either pops an
entry or marks a new node visited). -/
def walkFuel (fs : WalkFS) (visited : Finset DirId) (stack : List DirId) : ℕ :=
  stack.length
    + (fs.nodes.toFinset \ visited).sum fun d => (fs.children d).length

/-- `iter_video_files` (source lines 94–117): walk the tree from the root
with a fresh visited set. -/
def iter_video_files (fs : WalkFS) (exts : List String) (root : DirId) : List WEv :=
  (walkAux fs exts (walkFuel fs ∅ [root]) ∅ [root]).1

/-- The directories descended into, in order, along a trace. -/
def entersOf (l : List WEv) : List DirId :=
  l.filterMap fun e =>
    match e with
    | WEv.enter d => some d
    | WEv.yieldFile _ _ => none

/-- A two-directory forest with a symbolic link pointing back from the
child to its ancestor: root `(0,0)` contains `a.mp4` and the directory
`(0,1)`, which contains `b.mkv` and a link back to `(0,0)`. -/
def cycleFS : WalkFS where
  nodes := [(0, 0), (0, 1)]
  children := fun d =>
    if d = (0, 0) then [(0, 1)] else if d = (0, 1) then [(0, 0)] else []
  files := fun d =>
    if d = (0, 0) then ["a.mp4"] else if d = (0, 1) then ["b.mkv"] else []
  statFail := fun _ => false

/-- Test whether an event is an extraction attempt with the given strategy. -/
def isExtractOf (s : Strat) : Ev → Bool
  | Ev.extract s2 _ _ => decide (s2 = s)
  | _ => false

theorem withCooldown_tally (args : Args) (r : StepResult) :
    (withCooldown args r).tally = r.tally := by
  unfold withCooldown; split_ifs <;> rfl

theorem withCooldown_fs (args : Args) (r : StepResult) :
    (withCooldown args r).fs = r.fs := by
  unfold withCooldown; split_ifs <;> rfl

theorem withCooldown_mem (args : Args) (r : StepResult) (e : Ev)
    (hne : e ≠ Ev.sleepCooldown) :
    (e ∈ (withCooldown args r).evs ↔ e ∈ r.evs) := by
  unfold withCooldown; split_ifs <;> simp [hne]

theorem withCooldown_take (args : Args) (r : StepResult) (n : ℕ)
    (hn : n ≤ r.evs.length) :
    (withCooldown args r).evs.take n = r.evs.take n := by
  unfold withCooldown
  split_ifs with hc
  · simp [List.take_append_of_le_length hn]
  · rfl

theorem withCooldown_countP (args : Args) (r : StepResult) (p : Ev → Bool)
    (hp : p Ev.sleepCooldown = false) :
    (withCooldown args r).evs.countP p = r.evs.countP p := by
  unfold withCooldown
  split_ifs with hc
  · simp [List.countP_append, hp]
  · rfl

theorem extractPhase_fastOk (args : Args) (env : FileEnv) (fs : FileFS)
    (h : args.dry_run = false) (hf : attemptOk env.fastExit env.fastTmp = true) :
    extractPhase args env fs = withCooldown args
      ⟨Tally.created,
       [Ev.probe,
        Ev.extract Strat.fast (choose_timestamp args.snapshot_time env.probeDur)
          args.fast_timeout,
        Ev.replaceTmpTarget],
       ⟨env.fastTmp, none⟩⟩ := by
  unfold extractPhase
  split_ifs <;> simp_all

theorem extractPhase_fallbackOk (args : Args) (env : FileEnv) (fs : FileFS)
    (h : args.dry_run = false) (hf : attemptOk env.fastExit env.fastTmp = false)
    (hc : attemptOk env.compatExit env.compatTmp = true) :
    extractPhase args env fs = withCooldown args
      ⟨Tally.created,
       [Ev.probe,
        Ev.extract Strat.fast (choose_timestamp args.snapshot_time env.probeDur)
          args.fast_timeout,
        Ev.unlinkTmp,
        Ev.extract Strat.compat (compatOffset env.probeDur) args.compat_timeout,
        Ev.replaceTmpTarget],
       ⟨env.compatTmp, none⟩⟩ := by
  unfold extractPhase
  split_ifs <;> simp_all

theorem extractPhase_bothFail (args : Args) (env : FileEnv) (fs : FileFS)
    (h : args.dry_run = false) (hf : attemptOk env.fastExit env.fastTmp = false)
    (hc : attemptOk env.compatExit env.compatTmp = false) :
    extractPhase args env fs = withCooldown args
      ⟨Tally.failed,
       [Ev.probe,
        Ev.extract Strat.fast (choose_timestamp args.snapshot_time env.probeDur)
          args.fast_timeout,
        Ev.unlinkTmp,
        Ev.extract Strat.compat (compatOffset env.probeDur) args.compat_timeout,
        Ev.unlinkTmp],
       ⟨fs.target, if env.compatUnlinkFails then env.compatTmp else none⟩⟩ := by
  unfold extractPhase
  split_ifs <;> simp_all

/-- C2 counterexample: the claim says that on a failed attempt "the
temporary file is deleted before the run moves on", but the source wraps
each `tmp.unlink(missing_ok=True)` in `try: ... except Exception: pass`
(source lines 222–225, 249–252): when both attempts fail and the final
unlink raises, the run moves on (counting the file failed) with the
temporary file still present. -/
theorem tmp_unlink_swallowed_cex :
    (extractPhase ⟨120, false, false, 0, 30, 60⟩
        ⟨false, none, 1, none, false, 1, some 7, true⟩ ⟨none, none⟩).tally
      = Tally.failed
    ∧ (extractPhase ⟨120, false, false, 0, 30, 60⟩
        ⟨false, none, 1, none, false, 1, some 7, true⟩ ⟨none, none⟩).fs.tmp
      ≠ none := by
  rw [extractPhase_bothFail _ _ _ rfl (by decide) (by decide)]
  rw [withCooldown_tally, withCooldown_fs]
  exact ⟨rfl, by decide⟩

/-- C2 (amended): within the extraction section, the temporary output is
renamed onto the poster path exactly when an attempt verified (exit code 0
AND the temporary file exists AND its size is non-zero); when both attempts
fail the poster path is left exactly as it was, the file counts as failed,
deletion of the temporary file is attempted after each of the two failures,
and the temporary file is gone whenever that final unlink call does not
raise (a raising unlink is swallowed and may leave the temporary file
behind); after a failed fast attempt the temporary-file unlink is attempted
before the compat attempt runs; and a successful commit installs the
verified non-empty temporary file.  A timed-out attempt reports exit code
124 (see `run_with_timeout`), hence never verifies. -/
theorem extract_commit_atomic (args : Args) (env : FileEnv) (fs : FileFS)
    (h : args.dry_run = false) :
    (Ev.replaceTmpTarget ∈ (extractPhase args env fs).evs ↔
       (attemptOk env.fastExit env.fastTmp = true
        ∨ attemptOk env.compatExit env.compatTmp = true))
    ∧ (attemptOk env.fastExit env.fastTmp = false →
       attemptOk env.compatExit env.compatTmp = false →
        (extractPhase args env fs).fs.target = fs.target
        ∧ (env.compatUnlinkFails = false → (extractPhase args env fs).fs.tmp = none)
        ∧ (extractPhase args env fs).tally = Tally.failed
        ∧ (extractPhase args env fs).evs.countP (fun e => decide (e = Ev.unlinkTmp)) = 2)
    ∧ (attemptOk env.fastExit env.fastTmp = false →
        (extractPhase args env fs).evs.take 4 =
          [Ev.probe,
           Ev.extract Strat.fast (choose_timestamp args.snapshot_time env.probeDur)
             args.fast_timeout,
           Ev.unlinkTmp,
           Ev.extract Strat.compat (compatOffset env.probeDur) args.compat_timeout])
    ∧ (attemptOk env.fastExit env.fastTmp = true →
        (extractPhase args env fs).fs.target = env.fastTmp
        ∧ existsNonempty env.fastTmp = true
        ∧ (extractPhase args env fs).fs.tmp = none) := by
  by_cases hf : attemptOk env.fastExit env.fastTmp = true
  · rw [extractPhase_fastOk args env fs h hf]
    have hf2 : existsNonempty env.fastTmp = true := by
      have h2 := hf
      simp only [attemptOk, Bool.and_eq_true] at h2
      exact h2.2
    refine ⟨?_, by simp [hf], by simp [hf], fun _ => ?_⟩
    · rw [withCooldown_mem _ _ _ (by simp)]
      simp [hf]
    · exact ⟨by rw [withCooldown_fs], hf2, by rw [withCooldown_fs]⟩
  · have hf0 : attemptOk env.fastExit env.fastTmp = false := by
      simpa using hf
    by_cases hc : attemptOk env.compatExit env.compatTmp = true
    · rw [extractPhase_fallbackOk args env fs h hf0 hc]
      refine ⟨?_, by simp [hc], fun _ => ?_, by simp [hf0]⟩
      · rw [withCooldown_mem _ _ _ (by simp)]
        simp [hc]
      · rw [withCooldown_take _ _ _ (by norm_num)]
        rfl
    · have hc0 : attemptOk env.compatExit env.compatTmp = false := by
        simpa using hc
      rw [extractPhase_bothFail args env fs h hf0 hc0]
      refine ⟨?_, fun _ _ => ?_, fun _ => ?_, by simp [hf0]⟩
      · rw [withCooldown_mem _ _ _ (by simp)]
        simp [hf0, hc0]
      · refine ⟨by rw [withCooldown_fs], ?_, by rw [withCooldown_tally], ?_⟩
        · intro hcu
          rw [withCooldown_fs]
          simp [hcu]
        · rw [withCooldown_countP _ _ _ rfl]
          rfl
      · rw [withCooldown_take _ _ _ (by norm_num)]
        rfl

/-- Witness for C2's amended theorem at a concrete run where both attempts
fail (exit code 1, no temporary file produced) and the cleanup unlink does
not raise: the temporary file is gone and the file counts as failed. -/
theorem extract_commit_atomic_w :
    (extractPhase ⟨120, false, false, 0, 30, 60⟩
        ⟨false, none, 1, none, false, 1, none, false⟩ ⟨none, some 3⟩).fs.tmp = none
    ∧ (extractPhase ⟨120, false, false, 0, 30, 60⟩
        ⟨false, none, 1, none, false, 1, none, false⟩ ⟨none, some 3⟩).tally
      = Tally.failed :=
  ⟨((extract_commit_atomic ⟨120, false, false, 0, 30, 60⟩
      ⟨false, none, 1, none, false, 1, none, false⟩
      ⟨none, some 3⟩ rfl).2.1 (by decide) (by decide)).2.1 rfl,
   ((extract_commit_atomic ⟨120, false, false, 0, 30, 60⟩
      ⟨false, none, 1, none, false, 1, none, false⟩
      ⟨none, some 3⟩ rfl).2.1 (by decide) (by decide)).2.2.1⟩

/-- C3 counterexample: the claim says the recomputed fallback offset is
`duration * 0.5` whenever the known duration is below 6 seconds, but the code
computes `max(0.0, dur * 0.5)`: for a probed duration of `-2` (reachable,
since the probe returns ffprobe's parsed output unvalidated) the fallback
offset is `0`, not `(-2) * 0.5 = -1`, and `0` is the offset the compat
invocation actually receives. -/
theorem fallback_offset_cex :
    compatOffset (some (-2)) = 0
    ∧ (-2 : ℚ) * (1/2) ≠ 0
    ∧ Ev.extract Strat.compat (compatOffset (some (-2))) 60 ∈
        (extractPhase ⟨120, false, false, 0, 30, 60⟩
          ⟨false, some (-2), 1, none, false, 0, some 1, false⟩ ⟨none, none⟩).evs := by
  refine ⟨?_, by norm_num, ?_⟩
  · norm_num [compatOffset, max_def]
  · rw [extractPhase_fallbackOk _ _ _ rfl (by decide) (by decide)]
    rw [withCooldown_mem _ _ _ (by simp)]
    simp

/-- C3 (amended): a sequential-decode (compat) extraction occurs exactly when
the fast-seek attempt fails to verify; it is invoked with the recomputed
conservative offset — `5.0`, or `max 0 (duration * 0.5)` when the known
duration is below 6 seconds — with the fast attempt strictly before it and
each strategy invoked exactly once; and when the fast attempt fails but the
compat attempt verifies, the file is counted as created. -/
theorem fallback_escalation (args : Args) (env : FileEnv) (fs : FileFS)
    (h : args.dry_run = false) :
    ((∃ q tmo, Ev.extract Strat.compat q tmo ∈ (extractPhase args env fs).evs) ↔
       attemptOk env.fastExit env.fastTmp = false)
    ∧ (attemptOk env.fastExit env.fastTmp = false →
        (extractPhase args env fs).evs.countP (isExtractOf Strat.fast) = 1
        ∧ (extractPhase args env fs).evs.countP (isExtractOf Strat.compat) = 1
        ∧ (extractPhase args env fs).evs.take 4 =
            [Ev.probe,
             Ev.extract Strat.fast (choose_timestamp args.snapshot_time env.probeDur)
               args.fast_timeout,
             Ev.unlinkTmp,
             Ev.extract Strat.compat (compatOffset env.probeDur) args.compat_timeout])
    ∧ (attemptOk env.fastExit env.fastTmp = true →
        (extractPhase args env fs).evs.countP (isExtractOf Strat.fast) = 1
        ∧ (extractPhase args env fs).evs.countP (isExtractOf Strat.compat) = 0)
    ∧ (attemptOk env.fastExit env.fastTmp = false →
       attemptOk env.compatExit env.compatTmp = true →
        (extractPhase args env fs).tally = Tally.created)
    ∧ (∀ d : ℚ, d < 6 → compatOffset (some d) = max 0 (d * (1/2)))
    ∧ (∀ d : ℚ, 6 ≤ d → compatOffset (some d) = 5)
    ∧ compatOffset none = 5 := by
  refine ⟨?_, ?_, ?_, ?_,
    fun d hd => by simp only [compatOffset]; rw [if_pos hd],
    fun d hd => by simp only [compatOffset]; rw [if_neg (not_lt.mpr hd)],
    rfl⟩
  · by_cases hf : attemptOk env.fastExit env.fastTmp = true
    · rw [extractPhase_fastOk args env fs h hf]
      constructor
      · rintro ⟨q, tmo, hmem⟩
        rw [withCooldown_mem _ _ _ (by simp)] at hmem
        simp at hmem
      · intro hcon
        rw [hf] at hcon
        exact absurd hcon (by simp)
    · have hf0 : attemptOk env.fastExit env.fastTmp = false := by simpa using hf
      refine iff_of_true ⟨compatOffset env.probeDur, args.compat_timeout, ?_⟩ hf0
      by_cases hc : attemptOk env.compatExit env.compatTmp = true
      · rw [extractPhase_fallbackOk args env fs h hf0 hc]
        rw [withCooldown_mem _ _ _ (by simp)]
        simp
      · have hc0 : attemptOk env.compatExit env.compatTmp = false := by simpa using hc
        rw [extractPhase_bothFail args env fs h hf0 hc0]
        rw [withCooldown_mem _ _ _ (by simp)]
        simp
  · intro hf0
    by_cases hc : attemptOk env.compatExit env.compatTmp = true
    · rw [extractPhase_fallbackOk args env fs h hf0 hc]
      refine ⟨?_, ?_, ?_⟩
      · rw [withCooldown_countP _ _ _ rfl]; rfl
      · rw [withCooldown_countP _ _ _ rfl]; rfl
      · rw [withCooldown_take _ _ _ (by norm_num)]; rfl
    · have hc0 : attemptOk env.compatExit env.compatTmp = false := by simpa using hc
      rw [extractPhase_bothFail args env fs h hf0 hc0]
      refine ⟨?_, ?_, ?_⟩
      · rw [withCooldown_countP _ _ _ rfl]; rfl
      · rw [withCooldown_countP _ _ _ rfl]; rfl
      · rw [withCooldown_take _ _ _ (by norm_num)]; rfl
  · intro hf
    rw [extractPhase_fastOk args env fs h hf]
    refine ⟨?_, ?_⟩ <;> rw [withCooldown_countP _ _ _ rfl] <;> rfl
  · intro hf0 hc
    rw [extractPhase_fallbackOk args env fs h hf0 hc, withCooldown_tally]

/-- Witness for C3 at a concrete run: fast attempt exits 1 with no output,
compat attempt exits 0 producing a 1-byte file — the file counts as created
and the compat strategy ran exactly once. -/
theorem fallback_escalation_w :
    (extractPhase ⟨120, false, false, 0, 30, 60⟩ ⟨false, some 90, 1, none, false, 0, some 1, false⟩
        ⟨none, none⟩).tally = Tally.created
    ∧ (extractPhase ⟨120, false, false, 0, 30, 60⟩ ⟨false, some 90, 1, none, false, 0, some 1, false⟩
        ⟨none, none⟩).evs.countP (isExtractOf Strat.compat) = 1 :=
  ⟨(fallback_escalation ⟨120, false, false, 0, 30, 60⟩ ⟨false, some 90, 1, none, false, 0, some 1, false⟩
      ⟨none, none⟩ rfl).2.2.2.1 (by decide) (by decide),
   ((fallback_escalation ⟨120, false, false, 0, 30, 60⟩ ⟨false, some 90, 1, none, false, 0, some 1, false⟩
      ⟨none, none⟩ rfl).2.1 (by decide)).2.1⟩

/-- C7: for a file whose poster already exists non-empty, non-force mode
counts it as skipped with no probe, deletion or extraction and an unchanged
filesystem; force mode (in a real run) deletes the old poster as its first
action, and when that deletion raises, the file counts as failed with no
extraction attempted and the filesystem unchanged. -/
theorem check_existing_spec (args : Args) (env : FileEnv) (fs : FileFS)
    (hex : existsNonempty fs.target = true) :
    (args.force = false → processFile args env fs = ⟨Tally.skipped, [], fs⟩)
    ∧ (args.force = true → args.dry_run = false →
        (processFile args env fs).evs.head? = some Ev.deleteTarget
        ∧ (env.deleteFails = true →
            (processFile args env fs).tally = Tally.failed
            ∧ (processFile args env fs).evs = [Ev.deleteTarget]
            ∧ (processFile args env fs).fs = fs)) := by
  constructor
  · intro hforce
    simp [processFile, hex, hforce]
  · intro hforce hdry
    by_cases hdel : env.deleteFails = true
    · simp [processFile, hex, hforce, hdry, hdel]
    · have hdel0 : env.deleteFails = false := by simpa using hdel
      simp only [processFile, hex, if_true, hforce, hdry, hdel0,
        Bool.false_eq_true, if_false]
      exact ⟨rfl, by simp⟩

/-- Witness for C7: concrete skip in non-force mode, and concrete failed
deletion in force mode. -/
theorem check_existing_spec_w :
    processFile ⟨120, false, false, 3, 30, 60⟩ ⟨false, none, 0, some 1, false, 0, some 1, false⟩
        ⟨some 2, none⟩ = ⟨Tally.skipped, [], ⟨some 2, none⟩⟩
    ∧ (processFile ⟨120, false, true, 3, 30, 60⟩ ⟨true, none, 0, some 1, false, 0, some 1, false⟩
        ⟨some 2, none⟩).tally = Tally.failed :=
  ⟨(check_existing_spec ⟨120, false, false, 3, 30, 60⟩ ⟨false, none, 0, some 1, false, 0, some 1, false⟩
      ⟨some 2, none⟩ (by decide)).1 rfl,
   (((check_existing_spec ⟨120, false, true, 3, 30, 60⟩ ⟨true, none, 0, some 1, false, 0, some 1, false⟩
      ⟨some 2, none⟩ (by decide)).2 rfl rfl).2 rfl).1⟩

/-- C9: in dry-run mode the per-file step leaves the filesystem untouched and
performs at most the duration probe — no deletion, no extraction command, no
temporary or poster write, no cooldown sleep. -/
theorem dry_run_no_effects (args : Args) (env : FileEnv) (fs : FileFS)
    (h : args.dry_run = true) :
    (processFile args env fs).fs = fs
    ∧ ∀ e ∈ (processFile args env fs).evs, e = Ev.probe := by
  unfold processFile extractPhase
  simp only [h, if_true]
  split_ifs <;> simp

/-- Witness for C9 at a concrete dry-run input. -/
theorem dry_run_no_effects_w :
    (processFile ⟨120, true, false, 3, 30, 60⟩ ⟨false, some 30, 0, some 1, false, 0, some 1, false⟩
        ⟨none, none⟩).fs = ⟨none, none⟩ :=
  (dry_run_no_effects ⟨120, true, false, 3, 30, 60⟩ ⟨false, some 30, 0, some 1, false, 0, some 1, false⟩
      ⟨none, none⟩ rfl).1

theorem processFile_tally_ne (args : Args) (env : FileEnv) (fs : FileFS)
    (h : args.dry_run = false) :
    (processFile args env fs).tally ≠ Tally.noCount := by
  unfold processFile extractPhase
  simp only [h, Bool.false_eq_true, if_false]
  split_ifs <;> simp [withCooldown_tally]

theorem runAll_invariant (args : Args) (h : args.dry_run = false)
    (files : List (FileEnv × FileFS)) :
    ∀ c : Counters,
      (runAll args files c).processed + (c.created + c.skipped + c.failed)
        = c.processed + ((runAll args files c).created + (runAll args files c).skipped
            + (runAll args files c).failed) := by
  induction files with
  | nil => intro c; rfl
  | cons p rest ih =>
    intro c
    obtain ⟨env, fs⟩ := p
    simp only [runAll]
    rcases htal : (processFile args env fs).tally with _ | _ | _ | _
    · have := ih (applyTally ⟨c.processed + 1, c.created, c.skipped, c.failed⟩ Tally.created)
      simp only [applyTally] at this ⊢
      omega
    · have := ih (applyTally ⟨c.processed + 1, c.created, c.skipped, c.failed⟩ Tally.skipped)
      simp only [applyTally] at this ⊢
      omega
    · have := ih (applyTally ⟨c.processed + 1, c.created, c.skipped, c.failed⟩ Tally.failed)
      simp only [applyTally] at this ⊢
      omega
    · exact absurd htal (processFile_tally_ne args env fs h)

/-- C10: in a non-dry-run pass every enumerated file bumps `processed` and
exactly one of `created`, `skipped`, `failed`, so starting from zeroed
counters the pass ends with `processed = created + skipped + failed`. -/
theorem counters_partition (args : Args) (h : args.dry_run = false)
    (files : List (FileEnv × FileFS)) :
    (runAll args files ⟨0, 0, 0, 0⟩).processed
      = (runAll args files ⟨0, 0, 0, 0⟩).created
        + (runAll args files ⟨0, 0, 0, 0⟩).skipped
        + (runAll args files ⟨0, 0, 0, 0⟩).failed := by
  have hinv := runAll_invariant args h files ⟨0, 0, 0, 0⟩
  simpa using hinv

/-- Witness for C10 on a concrete two-file pass (one failure, one skip). -/
theorem counters_partition_w :
    (runAll ⟨120, false, false, 0, 30, 60⟩
        [(⟨false, none, 1, none, false, 1, none, false⟩, ⟨none, none⟩),
         (⟨false, none, 0, some 1, false, 0, some 1, false⟩, ⟨some 2, none⟩)] ⟨0, 0, 0, 0⟩).processed
      = (runAll ⟨120, false, false, 0, 30, 60⟩
          [(⟨false, none, 1, none, false, 1, none, false⟩, ⟨none, none⟩),
           (⟨false, none, 0, some 1, false, 0, some 1, false⟩, ⟨some 2, none⟩)] ⟨0, 0, 0, 0⟩).created
        + (runAll ⟨120, false, false, 0, 30, 60⟩
            [(⟨false, none, 1, none, false, 1, none, false⟩, ⟨none, none⟩),
             (⟨false, none, 0, some 1, false, 0, some 1, false⟩, ⟨some 2, none⟩)] ⟨0, 0, 0, 0⟩).skipped
        + (runAll ⟨120, false, false, 0, 30, 60⟩
            [(⟨false, none, 1, none, false, 1, none, false⟩, ⟨none, none⟩),
             (⟨false, none, 0, some 1, false, 0, some 1, false⟩, ⟨some 2, none⟩)] ⟨0, 0, 0, 0⟩).failed :=
  counters_partition ⟨120, false, false, 0, 30, 60⟩ rfl
    [(⟨false, none, 1, none, false, 1, none, false⟩, ⟨none, none⟩),
     (⟨false, none, 0, some 1, false, 0, some 1, false⟩, ⟨some 2, none⟩)]

theorem statOk_mem (fs : WalkFS) (d : DirId) (h : statOk fs d = true) :
    d ∈ fs.nodes := by
  simp only [statOk, Bool.and_eq_true, decide_eq_true_eq] at h
  exact h.1

theorem entersOf_descend (d : DirId) (fl : List String) (l : List WEv) :
    entersOf (WEv.enter d :: fl.map (WEv.yieldFile d) ++ l) = d :: entersOf l := by
  simp [entersOf, List.filterMap_cons, List.filterMap_append, List.filterMap_map,
    Function.comp]

theorem walkAux_visited_mono (fs : WalkFS) (exts : List String) :
    ∀ (fuel : ℕ) (visited : Finset DirId) (stack : List DirId),
      visited ⊆ (walkAux fs exts fuel visited stack).2 := by
  intro fuel
  induction fuel with
  | zero =>
    intro visited stack
    simp [walkAux]
  | succ n ih =>
    intro visited stack
    match stack with
    | [] => simp [walkAux]
    | d :: rest =>
      simp only [walkAux]
      split_ifs with h1 h2
      · exact ih visited rest
      · exact Finset.Subset.trans (Finset.subset_insert d visited)
          (ih (insert d visited) (fs.children d ++ rest))
      · exact ih visited rest

theorem walkAux_enters_nodup (fs : WalkFS) (exts : List String) :
    ∀ (fuel : ℕ) (visited : Finset DirId) (stack : List DirId),
      (entersOf (walkAux fs exts fuel visited stack).1).Nodup
      ∧ ∀ d ∈ entersOf (walkAux fs exts fuel visited stack).1, d ∉ visited := by
  intro fuel
  induction fuel with
  | zero =>
    intro visited stack
    simp [walkAux, entersOf]
  | succ n ih =>
    intro visited stack
    match stack with
    | [] => simp [walkAux, entersOf]
    | d :: rest =>
      simp only [walkAux]
      split_ifs with h1 h2
      · exact ih visited rest
      · have htail := ih (insert d visited) (fs.children d ++ rest)
        rw [entersOf_descend]
        constructor
        · refine List.nodup_cons.mpr ⟨?_, htail.1⟩
          intro hdmem
          exact htail.2 d hdmem (Finset.mem_insert_self d visited)
        · intro x hx
          rcases List.mem_cons.mp hx with hx | hx
          · subst hx; exact h2
          · intro hxv
            exact htail.2 x hx (Finset.mem_insert_of_mem hxv)
      · exact ih visited rest

theorem walkFuel_cons (fs : WalkFS) (visited : Finset DirId) (d : DirId)
    (rest : List DirId) :
    walkFuel fs visited (d :: rest) = walkFuel fs visited rest + 1 := by
  simp [walkFuel]
  omega

theorem walkFuel_descend (fs : WalkFS) (visited : Finset DirId) (d : DirId)
    (rest : List DirId) (hd : d ∈ fs.nodes) (hv : d ∉ visited) :
    walkFuel fs (insert d visited) (fs.children d ++ rest) + 1
      = walkFuel fs visited (d :: rest) := by
  unfold walkFuel
  have hmem : d ∈ fs.nodes.toFinset \ visited := by
    simp [List.mem_toFinset, hd, hv]
  have hers : fs.nodes.toFinset \ insert d visited
      = (fs.nodes.toFinset \ visited).erase d := by
    ext x
    simp only [Finset.mem_sdiff, Finset.mem_erase, Finset.mem_insert,
      List.mem_toFinset]
    tauto
  have hsplit : (fs.children d).length
      + ((fs.nodes.toFinset \ visited).erase d).sum (fun x => (fs.children x).length)
      = (fs.nodes.toFinset \ visited).sum fun x => (fs.children x).length :=
    Finset.add_sum_erase (fs.nodes.toFinset \ visited)
      (fun x => (fs.children x).length) hmem
  rw [hers]
  simp only [List.length_append, List.length_cons]
  omega

theorem walkAux_fuel_stable (fs : WalkFS) (exts : List String) :
    ∀ (fuel fuel' : ℕ) (visited : Finset DirId) (stack : List DirId),
      walkFuel fs visited stack ≤ fuel → walkFuel fs visited stack ≤ fuel' →
      walkAux fs exts fuel visited stack = walkAux fs exts fuel' visited stack := by
  intro fuel
  induction fuel with
  | zero =>
    intro fuel' visited stack h h'
    match stack with
    | [] =>
      match fuel' with
      | 0 => rfl
      | m + 1 => simp [walkAux]
    | d :: rest =>
      rw [walkFuel_cons] at h
      omega
  | succ n ih =>
    intro fuel' visited stack h h'
    match stack with
    | [] =>
      match fuel' with
      | 0 => simp [walkAux]
      | m + 1 => simp [walkAux]
    | d :: rest =>
      match fuel' with
      | 0 =>
        rw [walkFuel_cons] at h'
        omega
      | m + 1 =>
        have hrest : walkFuel fs visited rest ≤ n ∧ walkFuel fs visited rest ≤ m := by
          rw [walkFuel_cons] at h h'
          omega
        simp only [walkAux]
        split_ifs with h1 h2
        · exact ih m visited rest hrest.1 hrest.2
        · have hdes : walkFuel fs (insert d visited) (fs.children d ++ rest) ≤ n
              ∧ walkFuel fs (insert d visited) (fs.children d ++ rest) ≤ m := by
            have := walkFuel_descend fs visited d rest (statOk_mem fs d h1) h2
            omega
          rw [ih m (insert d visited) (fs.children d ++ rest) hdes.1 hdes.2]
        · exact ih m visited rest hrest.1 hrest.2

theorem walkAux_statFail_skip (fs : WalkFS) (exts : List String) (fuel : ℕ)
    (visited : Finset DirId) (d : DirId) (rest : List DirId)
    (h : statOk fs d = false) :
    walkAux fs exts (fuel + 1) visited (d :: rest)
      = walkAux fs exts fuel visited rest := by
  simp only [walkAux, h, Bool.false_eq_true, if_false]

/-- C8: the visited set only grows across a walk; no directory identity is
descended into twice (the trace's `enter` list has no duplicates and never
revisits an initially visited key); the walk stabilizes at the computed fuel
bound, so traversal terminates even on cyclic link structure; a directory
whose identity cannot be obtained is skipped silently, contributing nothing;
and on the concrete forest `cycleFS`, whose child directory links back to
its ancestor, the walk terminates yielding each real file exactly once. -/
theorem walker_cycle_safe :
    (∀ (fs : WalkFS) (exts : List String) (fuel : ℕ) (visited : Finset DirId)
        (stack : List DirId), visited ⊆ (walkAux fs exts fuel visited stack).2)
    ∧ (∀ (fs : WalkFS) (exts : List String) (fuel : ℕ) (visited : Finset DirId)
        (stack : List DirId),
        (entersOf (walkAux fs exts fuel visited stack).1).Nodup
        ∧ ∀ d ∈ entersOf (walkAux fs exts fuel visited stack).1, d ∉ visited)
    ∧ (∀ (fs : WalkFS) (exts : List String) (fuel : ℕ) (visited : Finset DirId)
        (stack : List DirId), walkFuel fs visited stack ≤ fuel →
        walkAux fs exts fuel visited stack
          = walkAux fs exts (walkFuel fs visited stack) visited stack)
    ∧ (∀ (fs : WalkFS) (exts : List String) (fuel : ℕ) (visited : Finset DirId)
        (d : DirId) (rest : List DirId), statOk fs d = false →
        walkAux fs exts (fuel + 1) visited (d :: rest)
          = walkAux fs exts fuel visited rest)
    ∧ iter_video_files cycleFS DEFAULT_EXTS (0, 0)
        = [WEv.enter (0, 0), WEv.yieldFile (0, 0) "a.mp4",
           WEv.enter (0, 1), WEv.yieldFile (0, 1) "b.mkv"] :=
  ⟨walkAux_visited_mono, walkAux_enters_nodup,
   fun fs exts fuel visited stack hle =>
     walkAux_fuel_stable fs exts fuel (walkFuel fs visited stack) visited stack hle le_rfl,
   walkAux_statFail_skip, by decide⟩

/-- Witness for C8: a concrete application of the fuel-stability clause on
the cyclic forest, with its hypothesis discharged by evaluation. -/
theorem walker_cycle_safe_w :
    walkFuel cycleFS ∅ [(0, 0)] ≤ 10
    ∧ walkAux cycleFS DEFAULT_EXTS 10 ∅ [(0, 0)]
        = walkAux cycleFS DEFAULT_EXTS (walkFuel cycleFS ∅ [(0, 0)]) ∅ [(0, 0)] :=
  ⟨by decide, walker_cycle_safe.2.2.1 cycleFS DEFAULT_EXTS 10 ∅ [(0, 0)] (by decide)⟩

end GeneratePosters
